import Mathlib

/-!
Shallow embedding of the tree-identifier page (`Home` component): the
line-oriented result formatter `formatAnalysis`, the upload validation in
`handleImageUpload`, and the UI state updates performed by the mount-time
default load, file selection/read, and `handleAnalyze`.

Strings are modelled as `List Char` where line-level processing happens;
JavaScript's `trim`, `split` and `join` are translated as `jsTrim`,
`jsSplit` and `jsJoin`.
-/

namespace TreeIdentifier

/-- The backtick character, one of the markdown characters stripped by
`formatAnalysis` (regex `[*_#` + backtick + `]`). -/
def backtickChar : Char := Char.ofNat 96

/-- The characters removed by `line.replace(/[*_#`]/g, '')`. -/
def markdownChars : List Char := ['*', '_', '#', backtickChar]

/-- JavaScript `String.prototype.trim`: drop whitespace from both ends. -/
def jsTrim (cs : List Char) : List Char :=
  ((cs.dropWhile Char.isWhitespace).reverse.dropWhile Char.isWhitespace).reverse

/-- JavaScript `String.prototype.split` with a one-character separator:
splitting never yields the empty list, and splitting the empty string
yields `[[]]`, as in JS where `"".split(":")` is `[""]`. -/
def jsSplit (sep : Char) : List Char → List (List Char)
  | [] => [[]]
  | c :: rest =>
    if c = sep then [] :: jsSplit sep rest
    else
      match jsSplit sep rest with
      | [] => [[c]]
      | p :: ps => (c :: p) :: ps

/-- JavaScript `Array.prototype.join` with a one-character separator. -/
def jsJoin (sep : Char) : List (List Char) → List Char
  | [] => []
  | [x] => x
  | x :: xs => x ++ sep :: jsJoin sep xs

/-- `line.replace(/[*_#`]/g, '').trim()` from `formatAnalysis`. -/
def cleanLine (line : List Char) : List Char :=
  jsTrim (line.filter (fun c => !(markdownChars.contains c)))

/-- The test `/^\d+\./.test(cleanLine)`: one or more digits followed by a
period at the start of the line. -/
def startsWithNumDot (cs : List Char) : Bool :=
  !(cs.takeWhile Char.isDigit).isEmpty
    && ((cs.dropWhile Char.isDigit).head? == some '.')

/-- `cleanLine.replace(/^\d+\.\s*/, '')`: when the numeric-heading regex
matches, remove the digits, the period and any following whitespace;
otherwise leave the line unchanged. -/
def stripNumDot (cs : List Char) : List Char :=
  if startsWithNumDot cs then
    ((cs.dropWhile Char.isDigit).drop 1).dropWhile Char.isWhitespace
  else cs

/-- One formatted output unit of `formatAnalysis`: the four JSX shapes it
returns (section header, label/value row, bullet row, paragraph). -/
inductive DisplayBlock where
  | heading (text : List Char)
  | labeledField (label value : List Char)
  | bulletItem (text : List Char)
  | paragraph (text : List Char)
deriving DecidableEq, Repr

/-- The per-line body of `formatAnalysis`: clean the line, drop it when
empty, otherwise classify it as heading, labeled field, bullet item or
paragraph, in that order, exactly as the source's if-chain does. -/
def formatLine (line : List Char) : Option DisplayBlock :=
  let cl := cleanLine line
  if cl.isEmpty then none
  else if startsWithNumDot cl then some (DisplayBlock.heading (stripNumDot cl))
  else if cl.head? == some '-' && cl.contains ':' then
    match jsSplit ':' (cl.drop 1) with
    | [] => none
    | label :: valueParts =>
      some (DisplayBlock.labeledField (jsTrim label) (jsTrim (jsJoin ':' valueParts)))
  else if cl.head? == some '-' then
    some (DisplayBlock.bulletItem (jsTrim (cl.drop 1)))
  else some (DisplayBlock.paragraph cl)

/-- `formatAnalysis`: split the report on newlines, map `formatLine` over
the lines and drop the `null` results (`.filter(Boolean)`). -/
def formatAnalysis (text : String) : List DisplayBlock :=
  (jsSplit '\n' text.toList).filterMap formatLine

/-- Error message for a file whose declared type is not an image. -/
def wrongTypeMsg : String := "Please upload a valid image file"

/-- Error message for an image file over the 20 MiB limit. -/
def oversizeMsg : String := "Image size should be less than 20MB"

/-- Error message set by the file reader's onerror callback. -/
def readFailMsg : String := "Failed to read the image file. Please try again."

/-- Generic fallback used by `handleAnalyze` when the thrown value is not
an `Error` carrying a message. -/
def analyzeFallbackMsg : String := "Failed to analyze image. Please try again."

/-- Error message for the mount-time default-image load (fetch failure or
reader failure both use this text). -/
def defaultLoadFailMsg : String := "Failed to load default image"

/-- The built-in analysis text shown with the default image. -/
def DEFAULT_ANALYSIS : String :=
  "1. Species Identification:\n- Scientific name: Quercus rubra\n- Common name: Northern Red Oak\n- Family: Fagaceae\n- Classification: Deciduous hardwood\n\n2. Physical Characteristics:\n- Size: Large (60-75 feet tall, 45-foot spread)\n- Leaf Type: Alternate, simple, 7-9 lobed with bristle tips\n- Bark: Dark gray-brown, developing distinctive ridges and furrows\n- Distinctive Features: Acorns with shallow caps, red-brown fall foliage\n- Growth Pattern: Pyramidal when young, rounded crown at maturity\n\n3. Growth Requirements:\n- Light Needs: Full sun to partial shade\n- Soil Preference: Adaptable, prefers well-drained, slightly acidic soil\n- Moisture: Moderate, drought-tolerant once established\n- Temperature Hardiness: USDA zones 4-8\n- Growth Rate: Moderate to fast (1-2 feet per year)\n\n4. Ecological Information:\n- Lifespan: 200-400 years\n- Wildlife Value: Acorns provide food for wildlife, nesting habitat for birds\n- Native Range: Eastern and Central North America\n- Ecosystem Benefits: Carbon sequestration, erosion control, shade\n- Seasonal Changes: Brilliant red fall color, winter dormancy\n\n5. Additional Information:\n- Uses: Shade tree, timber, wildlife habitat\n- Disease Resistance: Moderate, susceptible to oak wilt\n- Cultural Significance: Symbol of strength and endurance\n- Interesting Facts: Can produce up to 1,000 acorns in a good year\n- Conservation Status: Least concern, widespread"

/-- The part of a selected file that `handleImageUpload` inspects: its
declared MIME type and its size in bytes. -/
structure UploadedFile where
  type : String
  size : Nat
deriving DecidableEq, Repr

/-- The validation performed at the top of `handleImageUpload`: first the
declared type must start with image slash, then the size must not exceed
20 * 1024 * 1024 bytes; the first failing check's message is returned. -/
def validateFile (f : UploadedFile) : Option String :=
  if !("image/".toList.isPrefixOf f.type.toList) then some wrongTypeMsg
  else if f.size > 20 * 1024 * 1024 then some oversizeMsg
  else none

/-- What `handleImageUpload` does synchronously with a selected file:
either it returns early with a validation error, or it starts the
asynchronous file read that leads to base64 encoding and analysis. -/
inductive UploadAction where
  | rejected (msg : String)
  | startRead
deriving DecidableEq, Repr

/-- The control decision of `handleImageUpload` for a selected file. -/
def handleImageUpload (f : UploadedFile) : UploadAction :=
  match validateFile f with
  | some e => UploadAction.rejected e
  | none => UploadAction.startRead

/-- The component's UI state: the four `useState` hooks of `Home`
(`image`, `analysis`, `loading`, `error`). -/
structure UIState where
  image : Option String
  analysis : String
  loading : Bool
  error : Option String
deriving DecidableEq, Repr

/-- The initial hook values: `useState(null)`, `useState('')`,
`useState(false)`, `useState(null)`. -/
def initState : UIState :=
  { image := none, analysis := "", loading := false, error := none }

/-- Result of the awaited `analyzeImage` call: success with the returned
text, or a failure that may or may not carry an `Error` message. -/
inductive Outcome where
  | ok (result : String)
  | err (msg : Option String)
deriving DecidableEq, Repr

/-- The atomic state-updating events of the page, one per synchronous
batch of `set*` calls in the source:
mount-load start, mount fetch failure (fetch rejects or response not ok),
mount reader completion or failure, file selection (validation only),
upload reader completion (which also runs the synchronous head of
`handleAnalyze`) or failure, re-analysis of the current image, and
completion of the `analyzeImage` call. -/
inductive Event where
  | mountStart
  | mountFetchFail
  | mountReadOk (data : String)
  | mountReadFail
  | selectFile (f : UploadedFile)
  | readOk (data : String)
  | readFail
  | reAnalyze
  | analyzeDone (o : Outcome)

/-- One event's effect on UI state, transcribed from the source:
* `mountStart`: `setLoading(true)` at the top of `loadDefaultContent`;
* `mountFetchFail`: catch block, `setError(...)` and `setLoading(false)`;
* `mountReadOk`: onloadend, `setImage`, `setAnalysis(DEFAULT_ANALYSIS)`,
  `setLoading(false)`;
* `mountReadFail`: onerror, `setError(...)` and `setLoading(false)`;
* `selectFile`: the validation early-returns of `handleImageUpload`
  (`setError` only, nothing else touched);
* `readOk`: onloadend of the upload reader, `setImage`, `setError(null)`,
  then the synchronous head of `handleAnalyze`: `setLoading(true)`,
  `setError(null)`;
* `readFail`: onerror of the upload reader, `setError(...)`;
* `reAnalyze`: `handleAnalyze(image)` from the button, synchronous head;
* `analyzeDone`: `setAnalysis` on success or `setError` on failure, and
  `setLoading(false)` in the finally block. -/
def step (s : UIState) : Event → UIState
  | Event.mountStart => { s with loading := true }
  | Event.mountFetchFail => { s with error := some defaultLoadFailMsg, loading := false }
  | Event.mountReadOk data =>
      { s with image := some data, analysis := DEFAULT_ANALYSIS, loading := false }
  | Event.mountReadFail => { s with error := some defaultLoadFailMsg, loading := false }
  | Event.selectFile f =>
      match validateFile f with
      | some e => { s with error := some e }
      | none => s
  | Event.readOk data => { s with image := some data, error := none, loading := true }
  | Event.readFail => { s with error := some readFailMsg }
  | Event.reAnalyze => { s with loading := true, error := none }
  | Event.analyzeDone (Outcome.ok r) => { s with analysis := r, loading := false }
  | Event.analyzeDone (Outcome.err m) =>
      { s with error := some (m.getD analyzeFallbackMsg), loading := false }

/-- Run a sequence of events from a state. -/
def run (s : UIState) (evs : List Event) : UIState :=
  evs.foldl step s

/-- Scheduling guard under which the loading/error exclusivity invariant
holds: file selection and upload-read failure only happen while no
operation is loading, and the mount load only starts with no error
displayed (as on the actual first render). -/
def eventGuard (s : UIState) : Event → Bool
  | Event.mountStart => s.error.isNone
  | Event.selectFile _ => !s.loading
  | Event.readFail => !s.loading
  | _ => true

/-- A trace is guarded when every event satisfies `eventGuard` in the
state where it fires. -/
def traceOK : UIState → List Event → Bool
  | _, [] => true
  | s, e :: es => eventGuard s e && traceOK (step s e) es

/-! ### Helper lemmas about the JS string primitives -/

lemma jsSplit_ne_nil (sep : Char) (cs : List Char) : jsSplit sep cs ≠ [] := by
  induction cs with
  | nil => simp [jsSplit]
  | cons c rest ih =>
    simp only [jsSplit]
    split
    · simp
    · split <;> simp

lemma jsJoin_jsSplit (sep : Char) (cs : List Char) :
    jsJoin sep (jsSplit sep cs) = cs := by
  induction cs with
  | nil => rfl
  | cons c rest ih =>
    simp only [jsSplit]
    split
    case isTrue h =>
      cases hs : jsSplit sep rest with
      | nil => exact absurd hs (jsSplit_ne_nil sep rest)
      | cons p ps =>
        rw [hs] at ih
        subst h
        simp [jsJoin, ih]
    case isFalse h =>
      cases hs : jsSplit sep rest with
      | nil => exact absurd hs (jsSplit_ne_nil sep rest)
      | cons p ps =>
        rw [hs] at ih
        cases ps with
        | nil => simpa [jsJoin] using ih
        | cons q qs =>
          simp only [jsJoin] at ih ⊢
          simp [ih]

lemma jsSplit_head_tail (sep : Char) (cs : List Char) :
    ∃ ps, jsSplit sep cs = cs.takeWhile (fun c => !(c == sep)) :: ps ∧
      jsJoin sep ps =
        (if cs.contains sep then (cs.dropWhile (fun c => !(c == sep))).drop 1
         else []) := by
  induction cs with
  | nil => exact ⟨[], by simp [jsSplit], by simp [jsJoin]⟩
  | cons c rest ih =>
    by_cases h : c = sep
    · subst h
      refine ⟨jsSplit c rest, ?_, ?_⟩
      · simp [jsSplit, List.takeWhile_cons]
      · simp [List.dropWhile_cons, jsJoin_jsSplit]
    · obtain ⟨ps, hsplit, hjoin⟩ := ih
      have hbeq : (c == sep) = false := by simpa using h
      have hbeq2 : (sep == c) = false := by simpa using (Ne.symm h)
      refine ⟨ps, ?_, ?_⟩
      · rw [jsSplit, if_neg h, hsplit]
        simp [List.takeWhile_cons, hbeq]
      · have hcont : (c :: rest).contains sep = rest.contains sep := by
          rw [List.contains_cons, hbeq2, Bool.false_or]
        have hdrop : ((c :: rest).dropWhile fun x => !(x == sep))
            = rest.dropWhile fun x => !(x == sep) := by
          simp [List.dropWhile_cons, hbeq]
        rw [hcont, hdrop]
        exact hjoin

lemma takeWhile_append_stop (p : Char → Bool) (ds rest : List Char) (c : Char)
    (hds : ∀ x ∈ ds, p x = true) (hc : p c = false) :
    (ds ++ c :: rest).takeWhile p = ds ∧
      (ds ++ c :: rest).dropWhile p = c :: rest := by
  induction ds with
  | nil => simp [List.takeWhile_cons, List.dropWhile_cons, hc]
  | cons d ds ih =>
    have hd : p d = true := hds d (by simp)
    have hrec := ih (fun x hx => hds x (by simp [hx]))
    simp [List.takeWhile_cons, List.dropWhile_cons, hd, hrec.1, hrec.2]

lemma dropWhile_all (p : Char → Bool) (l : List Char)
    (h : ∀ c ∈ l, p c = true) : l.dropWhile p = [] := by
  induction l with
  | nil => rfl
  | cons c rest ih =>
    have hc : p c = true := h c (by simp)
    simp [List.dropWhile_cons, hc, ih (fun x hx => h x (by simp [hx]))]

lemma jsTrim_all_ws (l : List Char)
    (h : ∀ c ∈ l, c.isWhitespace = true) : jsTrim l = [] := by
  unfold jsTrim
  rw [dropWhile_all _ _ h]
  rfl

/-! ### Helper lemmas about the UI state machine -/

lemma step_preserves_excl (s : UIState) (e : Event)
    (hI : s.loading = true → s.error = none)
    (hg : eventGuard s e = true) :
    (step s e).loading = true → (step s e).error = none := by
  cases e with
  | mountStart =>
    intro _
    simpa [step, eventGuard, Option.isNone_iff_eq_none] using hg
  | mountFetchFail => intro hl; simp [step] at hl
  | mountReadOk d => intro hl; simp [step] at hl
  | mountReadFail => intro hl; simp [step] at hl
  | selectFile f =>
    intro hl
    cases hv : validateFile f with
    | none => simp only [step, hv] at hl ⊢; exact hI hl
    | some m =>
      simp only [step, hv] at hl
      simp only [eventGuard, Bool.not_eq_eq_eq_not, Bool.not_true] at hg
      exact absurd hl (by simp [hg])
  | readOk d => intro _; simp [step]
  | readFail =>
    intro hl
    simp only [step] at hl
    simp only [eventGuard, Bool.not_eq_eq_eq_not, Bool.not_true] at hg
    exact absurd hl (by simp [hg])
  | reAnalyze => intro _; simp [step]
  | analyzeDone o => cases o <;> (intro hl; simp [step] at hl)

lemma run_preserves_excl (evs : List Event) (s : UIState)
    (hI : s.loading = true → s.error = none)
    (ht : traceOK s evs = true) :
    (run s evs).loading = true → (run s evs).error = none := by
  induction evs generalizing s with
  | nil => simpa [run] using hI
  | cons e es ih =>
    simp only [traceOK, Bool.and_eq_true] at ht
    have hstep := step_preserves_excl s e hI ht.1
    simpa [run, List.foldl_cons] using ih (step s e) hstep ht.2

/-! ### Claim theorems -/

/-- C1 (counterexample): the claimed mutual exclusion of loading and
error fails on the code as stated: starting the mount load and then
selecting a file with a non-image declared type while that load is in
flight leaves loading true with the wrong-type error message set, because
the validation early-return sets only the error. -/
theorem c1_counterexample :
    (run initState [Event.mountStart,
        Event.selectFile ⟨"text/plain", 100⟩]).loading = true ∧
    (run initState [Event.mountStart,
        Event.selectFile ⟨"text/plain", 100⟩]).error = some wrongTypeMsg :=
  ⟨rfl, rfl⟩

/-- C1 (amended): on every guarded trace — file selection and upload-read
failure fire only while loading is false, and the mount load starts with
no error displayed — every reachable state keeps isLoading and error
mutually exclusive: loading true forces an absent error. -/
theorem c1_loading_error_exclusive_guarded (evs : List Event)
    (h : traceOK initState evs = true) :
    (run initState evs).loading = true → (run initState evs).error = none :=
  run_preserves_excl evs initState (fun _ => rfl) h

/-- Witness for C1 (amended): the one-event trace that starts the mount
load is guarded, its final state is loading with no error. -/
theorem c1_loading_error_exclusive_guarded_witness :
    traceOK initState [Event.mountStart] = true ∧
    (run initState [Event.mountStart]).error = none :=
  ⟨rfl, c1_loading_error_exclusive_guarded [Event.mountStart] rfl rfl⟩

/-- C2: when the analysis call fails, the controller ends not loading
(Failed) with an error present: the carried message when the failure has
one, the generic fallback when it has none; the image is unchanged. -/
theorem c2_analyze_failure_state (s : UIState) (m : Option String) :
    (step s (Event.analyzeDone (Outcome.err m))).loading = false ∧
    (step s (Event.analyzeDone (Outcome.err m))).error.isSome = true ∧
    (step s (Event.analyzeDone (Outcome.err m))).image = s.image ∧
    (∀ msg, m = some msg →
      (step s (Event.analyzeDone (Outcome.err m))).error = some msg) ∧
    (m = none →
      (step s (Event.analyzeDone (Outcome.err m))).error
        = some analyzeFallbackMsg) := by
  refine ⟨rfl, rfl, rfl, ?_, ?_⟩
  · intro msg hm; subst hm; rfl
  · intro hm; subst hm; rfl

/-- Witness for C2: a failure carrying "boom" reports "boom"; a failure
carrying no message reports the generic fallback. -/
theorem c2_analyze_failure_state_witness :
    (step initState (Event.analyzeDone (Outcome.err (some "boom")))).error
      = some "boom" ∧
    (step initState (Event.analyzeDone (Outcome.err none))).error
      = some analyzeFallbackMsg :=
  ⟨(c2_analyze_failure_state initState (some "boom")).2.2.2.1 "boom" rfl,
   (c2_analyze_failure_state initState none).2.2.2.2 rfl⟩

/-- C3: a selected file whose declared type does not start with "image/"
is rejected with the wrong-type message: the handler returns without
starting the read (hence no encoding and no analysis call), and image,
analysis and loading state are all left unchanged, only the error is set. -/
theorem c3_wrong_type_rejected (s : UIState) (f : UploadedFile)
    (h : "image/".toList.isPrefixOf f.type.toList = false) :
    handleImageUpload f = UploadAction.rejected wrongTypeMsg ∧
    (step s (Event.selectFile f)).error = some wrongTypeMsg ∧
    (step s (Event.selectFile f)).image = s.image ∧
    (step s (Event.selectFile f)).analysis = s.analysis ∧
    (step s (Event.selectFile f)).loading = s.loading := by
  have hv : validateFile f = some wrongTypeMsg := by
    simp only [validateFile, h, Bool.not_false]
    exact if_pos trivial
  refine ⟨?_, ?_, ?_, ?_, ?_⟩ <;> simp [handleImageUpload, step, hv]

/-- Witness for C3: a text/plain file is rejected with the wrong-type
message. -/
theorem c3_wrong_type_rejected_witness :
    "image/".toList.isPrefixOf ("text/plain".toList) = false ∧
    handleImageUpload ⟨"text/plain", 10⟩
      = UploadAction.rejected wrongTypeMsg :=
  ⟨by decide,
   (c3_wrong_type_rejected initState ⟨"text/plain", 10⟩ (by decide)).1⟩

/-- C4: an image-typed file strictly larger than 20 * 1024 * 1024 bytes
is rejected with the oversize message, which differs from the wrong-type
message, and the handler returns without starting the read, so no
encoding and no analysis happen. -/
theorem c4_oversize_rejected (s : UIState) (f : UploadedFile)
    (ht : "image/".toList.isPrefixOf f.type.toList = true)
    (hs : f.size > 20 * 1024 * 1024) :
    handleImageUpload f = UploadAction.rejected oversizeMsg ∧
    oversizeMsg ≠ wrongTypeMsg ∧
    (step s (Event.selectFile f)).error = some oversizeMsg := by
  have hv : validateFile f = some oversizeMsg := by
    simp only [validateFile, ht, Bool.not_true]
    rw [if_neg Bool.false_ne_true, if_pos hs]
  exact ⟨by simp [handleImageUpload, hv], by decide, by simp [step, hv]⟩

/-- Witness for C4: an image/png file of 20 MiB plus one byte is rejected
with the oversize message. -/
theorem c4_oversize_rejected_witness :
    "image/".toList.isPrefixOf ("image/png".toList) = true ∧
    20971521 > 20 * 1024 * 1024 ∧
    handleImageUpload ⟨"image/png", 20971521⟩
      = UploadAction.rejected oversizeMsg :=
  ⟨by decide, by decide,
   (c4_oversize_rejected initState ⟨"image/png", 20971521⟩
      (by decide) (by decide)).1⟩

/-- C5: a line whose cleaned form starts with a dash and contains a colon
becomes a labeled-field block: the text after the dash is split at the
first colon, both parts are trimmed, and every later colon stays in the
value; in particular the line "- Scientific name: Quercus rubra" yields
the block with label "Scientific name" and value "Quercus rubra". -/
theorem c5_labeled_field_line (line : List Char)
    (h1 : (cleanLine line).head? = some '-')
    (h2 : (cleanLine line).contains ':' = true) :
    (formatLine line = some (DisplayBlock.labeledField
      (jsTrim (((cleanLine line).drop 1).takeWhile (fun c => !(c == ':'))))
      (jsTrim ((((cleanLine line).drop 1).dropWhile
          (fun c => !(c == ':'))).drop 1)))) ∧
    formatAnalysis "- Scientific name: Quercus rubra" =
      [DisplayBlock.labeledField "Scientific name".toList
        "Quercus rubra".toList] := by
  constructor
  · obtain ⟨t, hcl⟩ : ∃ t, cleanLine line = '-' :: t := by
      cases hc : cleanLine line with
      | nil => rw [hc] at h1; simp at h1
      | cons a t =>
        rw [hc, List.head?_cons, Option.some_inj] at h1
        exact ⟨t, by rw [h1]⟩
    have ht : t.contains ':' = true := by
      rw [hcl, List.contains_cons] at h2
      simpa using h2
    obtain ⟨ps, hsp, hjoin⟩ := jsSplit_head_tail ':' t
    rw [ht] at hjoin
    have hjoin2 : jsJoin ':' ps
        = (t.dropWhile (fun c => !(c == ':'))).drop 1 := by
      simpa using hjoin
    have hnum : startsWithNumDot ('-' :: t) = false := by
      have hd : Char.isDigit '-' = false := by decide
      simp [startsWithNumDot, List.takeWhile_cons, hd]
    have hmem : ':' ∈ t := by simpa using ht
    simp only [formatLine]
    rw [hcl]
    simp [hnum, ht, hmem, hsp, hjoin2, List.drop_one]
  · decide

/-- Witness for C5: the example line satisfies both hypotheses and the
whole formatter output on it is the single labeled-field block. -/
theorem c5_labeled_field_line_witness :
    (cleanLine ("- Scientific name: Quercus rubra".toList)).head?
      = some '-' ∧
    formatAnalysis "- Scientific name: Quercus rubra" =
      [DisplayBlock.labeledField "Scientific name".toList
        "Quercus rubra".toList] :=
  ⟨by decide,
   (c5_labeled_field_line ("- Scientific name: Quercus rubra".toList)
      (by decide) (by decide)).2⟩

/-- C6: a line whose cleaned form is a nonempty run of digits, a period,
then a remainder becomes a heading block whose text is the remainder with
its leading whitespace removed (digits, period and following whitespace
dropped); in particular "1. Species Identification:" yields a heading
with text "Species Identification:". -/
theorem c6_numbered_heading (line ds rest : List Char)
    (hcl : cleanLine line = ds ++ '.' :: rest)
    (hne : ds ≠ [])
    (hds : ∀ c ∈ ds, c.isDigit = true) :
    (formatLine line
      = some (DisplayBlock.heading (rest.dropWhile Char.isWhitespace))) ∧
    formatAnalysis "1. Species Identification:" =
      [DisplayBlock.heading "Species Identification:".toList] := by
  constructor
  · have hdot : Char.isDigit '.' = false := by decide
    have htd := takeWhile_append_stop Char.isDigit ds rest '.' hds hdot
    have hnum : startsWithNumDot (ds ++ '.' :: rest) = true := by
      simp [startsWithNumDot, htd.1, htd.2, hne]
    have hstrip : stripNumDot (ds ++ '.' :: rest)
        = rest.dropWhile Char.isWhitespace := by
      simp [stripNumDot, hnum, htd.2, List.drop_one]
    have hempty : (ds ++ '.' :: rest).isEmpty = false := by
      cases ds <;> simp
    simp only [formatLine]
    rw [hcl]
    simp [hempty, hnum, hstrip]
  · decide

/-- Witness for C6: the example line decomposes as digit run "1", period,
remainder, and formats to the expected heading. -/
theorem c6_numbered_heading_witness :
    cleanLine ("1. Species Identification:".toList)
      = ['1'] ++ '.' :: (" Species Identification:".toList) ∧
    formatLine ("1. Species Identification:".toList)
      = some (DisplayBlock.heading
          ((" Species Identification:".toList).dropWhile
            Char.isWhitespace)) :=
  ⟨by decide,
   (c6_numbered_heading ("1. Species Identification:".toList) ['1']
      (" Species Identification:".toList)
      (by decide) (by decide) (by decide)).1⟩

/-- C7: the formatter is a pure function of the report text alone: equal
inputs give identical ordered block sequences, so a second call on the
unchanged report repeats the first result exactly. -/
theorem c7_format_deterministic (r s : String) (h : r = s) :
    formatAnalysis r = formatAnalysis s := by rw [h]

/-- Witness for C7: two calls on the same concrete report agree. -/
theorem c7_format_deterministic_witness :
    formatAnalysis "1. Species Identification:"
      = formatAnalysis "1. Species Identification:" :=
  c7_format_deterministic "1. Species Identification:"
    "1. Species Identification:" rfl

/-- C8: a failed analysis call changes neither the displayed report text
nor the image: the failure branch touches only error and loading. -/
theorem c8_analyze_failure_frame (s : UIState) (m : Option String) :
    (step s (Event.analyzeDone (Outcome.err m))).analysis = s.analysis ∧
    (step s (Event.analyzeDone (Outcome.err m))).image = s.image :=
  ⟨rfl, rfl⟩

/-- C9: the type check runs before the size check: a file that is both
non-image and oversize is rejected with the wrong-type message. -/
theorem c9_type_before_size (f : UploadedFile)
    (ht : "image/".toList.isPrefixOf f.type.toList = false)
    (hs : f.size > 20 * 1024 * 1024) :
    handleImageUpload f = UploadAction.rejected wrongTypeMsg := by
  have hv : validateFile f = some wrongTypeMsg := by
    simp only [validateFile, ht, Bool.not_false]
    exact if_pos trivial
  simp [handleImageUpload, hv]

/-- Witness for C9: a 30-megabyte text/plain file is rejected for its
type, not its size. -/
theorem c9_type_before_size_witness :
    "image/".toList.isPrefixOf ("text/plain".toList) = false ∧
    30000000 > 20 * 1024 * 1024 ∧
    handleImageUpload ⟨"text/plain", 30000000⟩
      = UploadAction.rejected wrongTypeMsg :=
  ⟨by decide, by decide,
   c9_type_before_size ⟨"text/plain", 30000000⟩ (by decide) (by decide)⟩

/-- C10: a line made only of the stripped markdown characters and
whitespace cleans to the empty line and so produces no block, exactly
like a blank line. -/
theorem c10_markdown_only_line_dropped (line : List Char)
    (h : ∀ c ∈ line,
      markdownChars.contains c = true ∨ c.isWhitespace = true) :
    formatLine line = none := by
  have hcl : cleanLine line = [] := by
    apply jsTrim_all_ws
    intro c hc
    rw [List.mem_filter] at hc
    rcases h c hc.1 with hm | hw
    · exact absurd hm (by simpa using hc.2)
    · exact hw
  simp [formatLine, hcl]

/-- Witness for C10: a line of stars, underscores, hashes and spaces is
dropped. -/
theorem c10_markdown_only_line_dropped_witness :
    (∀ c ∈ ("* _ #".toList),
      markdownChars.contains c = true ∨ c.isWhitespace = true) ∧
    formatLine ("* _ #".toList) = none :=
  ⟨by decide, c10_markdown_only_line_dropped ("* _ #".toList) (by decide)⟩

end TreeIdentifier
